import Mathlib

/-!
A formal model of the sphere ray tracer in this repository
(src/vector.rs, src/sphere.rs, src/scene.rs).

Floating-point values are modelled as real numbers: `f32::sqrt` becomes
`Real.sqrt` and `f32::powf` becomes `Real.rpow`.  Components that the core
references but whose source files are not part of the snapshot
(`Ray`, `Pixel`, `Camera`, `Material`, and the PNG encoder) are modelled
from the specification; each such definition carries a doc comment saying
so.  Everything else is a direct translation of the Rust source.
-/

namespace RayTracer

/-- The 3-component vector of src/vector.rs; it doubles as an RGB color. -/
structure Vector where
  x : ℝ
  y : ℝ
  z : ℝ

@[ext]
theorem Vector.ext_xyz {a b : Vector} (hx : a.x = b.x) (hy : a.y = b.y)
    (hz : a.z = b.z) : a = b := by
  cases a; cases b; simp_all

/-- Dot product, src/vector.rs `dot`. -/
def Vector.dot (v other : Vector) : ℝ :=
  v.x * other.x + v.y * other.y + v.z * other.z

/-- Squared length, src/vector.rs `squared_length`. -/
def Vector.squared_length (v : Vector) : ℝ := v.dot v

/-- Length, src/vector.rs `length` (`f32::sqrt` modelled as `Real.sqrt`). -/
noncomputable def Vector.length (v : Vector) : ℝ :=
  Real.sqrt v.squared_length

/-- Negation, src/vector.rs `impl Neg`. -/
instance : Neg Vector := ⟨fun v => ⟨-v.x, -v.y, -v.z⟩⟩

/-- Addition, src/vector.rs `impl Add`. -/
instance : Add Vector := ⟨fun a b => ⟨a.x + b.x, a.y + b.y, a.z + b.z⟩⟩

/-- Subtraction, src/vector.rs `impl Sub`. -/
instance : Sub Vector := ⟨fun a b => ⟨a.x - b.x, a.y - b.y, a.z - b.z⟩⟩

/-- Scalar multiplication, src/vector.rs `impl Mul<Vector> for f64`. -/
instance : HMul ℝ Vector Vector := ⟨fun c v => ⟨c * v.x, c * v.y, c * v.z⟩⟩

/-- Elementwise multiplication, src/vector.rs `impl Mul<Vector> for Vector`. -/
instance : Mul Vector := ⟨fun a b => ⟨a.x * b.x, a.y * b.y, a.z * b.z⟩⟩

/-- Division by a scalar, src/vector.rs `impl Div<f64>`: `(1.0 / r) * self`. -/
noncomputable instance : HDiv Vector ℝ Vector := ⟨fun v r => ((1 : ℝ) / r) * v⟩

@[simp] theorem Vector.neg_x (v : Vector) : (-v).x = -v.x := rfl

@[simp] theorem Vector.neg_y (v : Vector) : (-v).y = -v.y := rfl

@[simp] theorem Vector.neg_z (v : Vector) : (-v).z = -v.z := rfl

@[simp] theorem Vector.add_x (a b : Vector) : (a + b).x = a.x + b.x := rfl

@[simp] theorem Vector.add_y (a b : Vector) : (a + b).y = a.y + b.y := rfl

@[simp] theorem Vector.add_z (a b : Vector) : (a + b).z = a.z + b.z := rfl

@[simp] theorem Vector.sub_x (a b : Vector) : (a - b).x = a.x - b.x := rfl

@[simp] theorem Vector.sub_y (a b : Vector) : (a - b).y = a.y - b.y := rfl

@[simp] theorem Vector.sub_z (a b : Vector) : (a - b).z = a.z - b.z := rfl

@[simp] theorem Vector.smul_x (c : ℝ) (v : Vector) : (c * v).x = c * v.x := rfl

@[simp] theorem Vector.smul_y (c : ℝ) (v : Vector) : (c * v).y = c * v.y := rfl

@[simp] theorem Vector.smul_z (c : ℝ) (v : Vector) : (c * v).z = c * v.z := rfl

@[simp] theorem Vector.mul_x (a b : Vector) : (a * b).x = a.x * b.x := rfl

@[simp] theorem Vector.mul_y (a b : Vector) : (a * b).y = a.y * b.y := rfl

@[simp] theorem Vector.mul_z (a b : Vector) : (a * b).z = a.z * b.z := rfl

@[simp] theorem Vector.div_x (v : Vector) (r : ℝ) : (v / r).x = (1 / r) * v.x := rfl

@[simp] theorem Vector.div_y (v : Vector) (r : ℝ) : (v / r).y = (1 / r) * v.y := rfl

@[simp] theorem Vector.div_z (v : Vector) (r : ℝ) : (v / r).z = (1 / r) * v.z := rfl

/-- Normalization, src/vector.rs `to_unit_vector`: `*self / self.length()`. -/
noncomputable def Vector.to_unit_vector (v : Vector) : Vector :=
  v / v.length

/-- Reflection about a normal, src/vector.rs `reflect`:
`self - 2.0 * self.dot(n) * n`. -/
def Vector.reflect (v n : Vector) : Vector :=
  v - (2 * v.dot n) * n

/-- Claim C9: for every vector `v` and unit-length normal `n`, the reflection
`v - 2(v·n)n` has exactly the same length as `v` (real arithmetic). -/
theorem reflect_preserves_length (v n : Vector) (hn : n.length = 1) :
    (v.reflect n).length = v.length := by
  have hnn : n.dot n = 1 := by
    have h0 : 0 ≤ n.dot n := by
      simp only [Vector.dot]
      nlinarith [mul_self_nonneg n.x, mul_self_nonneg n.y, mul_self_nonneg n.z]
    have := congrArg (fun t => t ^ 2) hn
    simpa [Vector.length, Vector.squared_length, Real.sq_sqrt h0] using this
  unfold Vector.length Vector.squared_length
  congr 1
  simp only [Vector.reflect, Vector.dot, Vector.sub_x, Vector.sub_y,
    Vector.sub_z, Vector.smul_x, Vector.smul_y, Vector.smul_z]
  simp only [Vector.dot] at hnn
  nlinarith [hnn, sq_nonneg (v.x * n.x + v.y * n.y + v.z * n.z)]

/-- Witness for C9 at `v = (1,2,3)`, `n = (0,0,1)`. -/
theorem reflect_preserves_length_witness :
    (Vector.mk 0 0 1).length = 1 ∧
      ((Vector.mk 1 2 3).reflect ⟨0, 0, 1⟩).length = (Vector.mk 1 2 3).length := by
  have hn : (Vector.mk 0 0 1).length = 1 := by
    simp [Vector.length, Vector.squared_length, Vector.dot]
  exact ⟨hn, reflect_preserves_length ⟨1, 2, 3⟩ ⟨0, 0, 1⟩ hn⟩

@[simp] theorem Vector.mk_x (a b c : ℝ) : (Vector.mk a b c).x = a := rfl

@[simp] theorem Vector.mk_y (a b c : ℝ) : (Vector.mk a b c).y = b := rfl

@[simp] theorem Vector.mk_z (a b c : ℝ) : (Vector.mk a b c).z = c := rfl

open scoped Classical

/-- Fixed precision epsilon of src/sphere.rs: `T_PRECISION = 0.00001`. -/
noncomputable def T_PRECISION : ℝ := 0.00001

/-- Modelled from the spec: `Ray` (src/ray.rs is not in the snapshot):
"origin + direction". -/
structure Ray where
  origin : Vector
  direction : Vector

/-- Modelled from the spec: `Ray` "produces a point at parameter t along the
ray" (`line_to_p` as used by src/sphere.rs): `origin + t * direction`. -/
noncomputable def Ray.line_to_p (r : Ray) (t : ℝ) : Vector :=
  r.origin + t * r.direction

/-- Modelled from the spec: `get_ray` of src/ray.rs (not in the snapshot),
packaging an origin and a direction into a `Ray` as used by `render`. -/
def get_ray (origin direction : Vector) : Ray :=
  ⟨origin, direction⟩

/-- Modelled from the spec: `Material` (its source file is not in the
snapshot): ambient color, diffuse color, reflectiveness, shininess exponent;
field names follow the uses in src/scene.rs (`ambient`, `diffuse`,
`reflectiveness`, `shine`). -/
structure Material where
  ambient : Vector
  diffuse : Vector
  reflectiveness : ℝ
  shine : ℝ

/-- Intersection record, src/sphere.rs `Hit`.  The `material` field is
commented out in src/sphere.rs but required by src/scene.rs (`p.material`,
`k.material`), so it is kept, modelled from the spec ("material reference"). -/
structure Hit where
  t : ℝ
  p : Vector
  normal : Vector
  material : Material

/-- Sphere, src/sphere.rs `Sphere`; the material reference is modelled from
the spec ("immutable center + radius (> 0) + material reference"). -/
structure Sphere where
  center : Vector
  radius : ℝ
  material : Material

/-- Ray-sphere intersection, src/sphere.rs `ray_intersect`. -/
noncomputable def Sphere.ray_intersect (s : Sphere) (r : Ray) : Option Hit :=
  let oc := r.origin - s.center
  let a := r.direction.dot r.direction
  let hb := oc.dot r.direction
  let c := oc.dot oc - s.radius * s.radius
  let discriminant := hb * hb - a * c
  if discriminant > 0 then
    let t1 := (-hb + Real.sqrt discriminant) / 2
    let t2 := (-hb - Real.sqrt discriminant) / 2
    if t1 > 0 ∧ t2 > 0 then
      let t := if t1 > t2 then t2 else t1
      if t ≥ T_PRECISION then
        let intersection := r.line_to_p t
        some { t := t, p := intersection,
               normal := (intersection - s.center) / s.radius,
               material := s.material }
      else none
    else none
  else none

/-- Abbreviation: the `half_b` coefficient `oc·dir` of src/sphere.rs. -/
noncomputable def sphere_hb (s : Sphere) (r : Ray) : ℝ :=
  (r.origin - s.center).dot r.direction

/-- Abbreviation: the discriminant `half_b² - a·c` of src/sphere.rs. -/
noncomputable def sphere_disc (s : Sphere) (r : Ray) : ℝ :=
  sphere_hb s r * sphere_hb s r -
    r.direction.dot r.direction *
      ((r.origin - s.center).dot (r.origin - s.center) - s.radius * s.radius)

/-- Abbreviation: the root `(-half_b + √disc) / 2` of src/sphere.rs. -/
noncomputable def sphere_root1 (s : Sphere) (r : Ray) : ℝ :=
  (-sphere_hb s r + Real.sqrt (sphere_disc s r)) / 2

/-- Abbreviation: the root `(-half_b - √disc) / 2` of src/sphere.rs. -/
noncomputable def sphere_root2 (s : Sphere) (r : Ray) : ℝ :=
  (-sphere_hb s r - Real.sqrt (sphere_disc s r)) / 2

/-- Abbreviation: the smaller of the two roots. -/
noncomputable def sphere_tmin (s : Sphere) (r : Ray) : ℝ :=
  min (sphere_root1 s r) (sphere_root2 s r)

theorem ray_intersect_eq (s : Sphere) (r : Ray) :
    s.ray_intersect r =
      if sphere_disc s r > 0 ∧ sphere_root1 s r > 0 ∧ sphere_root2 s r > 0 ∧
          sphere_tmin s r ≥ T_PRECISION then
        some ⟨sphere_tmin s r, r.line_to_p (sphere_tmin s r),
              (r.line_to_p (sphere_tmin s r) - s.center) / s.radius, s.material⟩
      else none := by
  unfold Sphere.ray_intersect sphere_tmin sphere_root1 sphere_root2 sphere_disc sphere_hb
  dsimp only
  set hb := (r.origin - s.center).dot r.direction with hbdef
  set A := r.direction.dot r.direction with Adef
  set C := (r.origin - s.center).dot (r.origin - s.center) - s.radius * s.radius with Cdef
  set d := hb * hb - A * C with ddef
  set sq := Real.sqrt d with sqdef
  by_cases h1 : d > 0
  · have hsq : 0 < sq := by rw [sqdef]; exact Real.sqrt_pos.mpr h1
    have hlt : (-hb - sq) / 2 < (-hb + sq) / 2 := by linarith
    have hmin : min ((-hb + sq) / 2) ((-hb - sq) / 2) = (-hb - sq) / 2 :=
      min_eq_right hlt.le
    rw [if_pos h1, if_pos hlt]
    by_cases h2 : (-hb + sq) / 2 > 0 ∧ (-hb - sq) / 2 > 0
    · rw [if_pos h2]
      by_cases h4 : (-hb - sq) / 2 ≥ T_PRECISION
      · rw [if_pos h4, if_pos ⟨h1, h2.1, h2.2, by rw [hmin]; exact h4⟩, hmin]
      · rw [if_neg h4, if_neg (fun hc => h4 (hmin ▸ hc.2.2.2))]
    · rw [if_neg h2, if_neg (fun hc => h2 ⟨hc.2.1, hc.2.2.1⟩)]
  · rw [if_neg h1, if_neg (fun hc => h1 hc.1)]

/-- Claim C1: the intersection test returns a hit iff the discriminant
`half_b² - a·c` is strictly positive, both roots `(-half_b ± √disc)/2` are
strictly positive, and the smaller root is at least `T_PRECISION`; in that
case the returned hit's parameter `t` is that smaller root; otherwise the
test returns `none`. -/
theorem ray_intersect_characterization (s : Sphere) (r : Ray) :
    ((s.ray_intersect r).isSome ↔
      (sphere_disc s r > 0 ∧ sphere_root1 s r > 0 ∧ sphere_root2 s r > 0 ∧
        sphere_tmin s r ≥ T_PRECISION))
    ∧ ∀ h, s.ray_intersect r = some h → h.t = sphere_tmin s r := by
  rw [ray_intersect_eq]
  split_ifs with hc
  · refine ⟨by simpa using hc, fun h hh => ?_⟩
    cases hh
    rfl
  · exact ⟨by simpa using hc, fun h hh => absurd hh (by simp)⟩

/-- Material marker used in witnesses. -/
noncomputable def materialW : Material := ⟨⟨0, 0, 0⟩, ⟨0, 0, 0⟩, 0, 1⟩

/-- Witness sphere family: the unit sphere centered at `(0,0,3)` carrying
material `m`. -/
noncomputable def sphereG (m : Material) : Sphere := ⟨⟨0, 0, 3⟩, 1, m⟩

/-- Concrete sphere used in witnesses. -/
noncomputable def sphereW : Sphere := sphereG materialW

/-- Concrete ray used in witnesses: from the origin along `+z`. -/
noncomputable def rayW : Ray :=
  ⟨⟨0, 0, 0⟩, ⟨0, 0, 1⟩⟩

theorem sphere_disc_G (m : Material) : sphere_disc (sphereG m) rayW = 1 := by
  simp only [sphere_disc, sphere_hb, sphereG, rayW, Vector.dot, Vector.sub_x,
    Vector.sub_y, Vector.sub_z, Vector.mk_x, Vector.mk_y, Vector.mk_z]
  norm_num

theorem sphere_hb_G (m : Material) : sphere_hb (sphereG m) rayW = -3 := by
  simp only [sphere_hb, sphereG, rayW, Vector.dot, Vector.sub_x, Vector.sub_y,
    Vector.sub_z, Vector.mk_x, Vector.mk_y, Vector.mk_z]
  norm_num

theorem sphere_tmin_G (m : Material) : sphere_tmin (sphereG m) rayW = 1 := by
  unfold sphere_tmin sphere_root1 sphere_root2
  rw [sphere_disc_G, sphere_hb_G, Real.sqrt_one]
  norm_num

theorem sphere_cond_G (m : Material) :
    sphere_disc (sphereG m) rayW > 0 ∧ sphere_root1 (sphereG m) rayW > 0 ∧
      sphere_root2 (sphereG m) rayW > 0 ∧
      sphere_tmin (sphereG m) rayW ≥ T_PRECISION := by
  refine ⟨by rw [sphere_disc_G]; norm_num, ?_, ?_, ?_⟩
  · unfold sphere_root1
    rw [sphere_disc_G, sphere_hb_G, Real.sqrt_one]
    norm_num
  · unfold sphere_root2
    rw [sphere_disc_G, sphere_hb_G, Real.sqrt_one]
    norm_num
  · rw [sphere_tmin_G]
    unfold T_PRECISION
    norm_num

theorem ray_intersect_eval_G (m : Material) :
    (sphereG m).ray_intersect rayW = some ⟨1, ⟨0, 0, 1⟩, ⟨0, 0, -2⟩, m⟩ := by
  rw [ray_intersect_eq, if_pos (sphere_cond_G m), sphere_tmin_G]
  simp only [sphereG, rayW, Ray.line_to_p]
  refine congrArg some ?_
  refine congrArg₂ (fun p n => Hit.mk 1 p n m) ?_ ?_
  · ext <;> norm_num
  · ext <;> norm_num

/-- Witness for C1: the characterization applied to the concrete unit sphere
at `(0,0,3)` and the ray from the origin along `+z`; the test reports a hit
and its parameter equals the smaller root `1`. -/
theorem ray_intersect_characterization_witness :
    (sphereW.ray_intersect rayW).isSome = true ∧
      (Hit.mk 1 ⟨0, 0, 1⟩ ⟨0, 0, -2⟩ materialW).t = sphere_tmin sphereW rayW := by
  constructor
  · apply (ray_intersect_characterization sphereW rayW).1.mpr
    exact sphere_cond_G materialW
  · exact (ray_intersect_characterization sphereW rayW).2 _
      (ray_intersect_eval_G materialW)

/-- Modelled from the spec: the 8-bit RGB triple handed to the image writer
(the `lodepng::RGB` value built in src/scene.rs); components as integers. -/
structure RGB8 where
  r : ℤ
  g : ℤ
  b : ℤ

/-- Clamp of one color component to 8 bits, the inner `u` of src/vector.rs
`to_u8`: negative components map to 0, components ≥ 1 map to 255, otherwise
`floor(f * 255.9)`. -/
noncomputable def u8_component (f : ℝ) : ℤ :=
  if f < 0 then 0 else if f ≥ 1 then 255 else ⌊f * 255.9⌋

/-- Conversion to a clamped 8-bit triple, src/vector.rs `to_u8`. -/
noncomputable def Vector.to_u8 (v : Vector) : RGB8 :=
  ⟨u8_component v.x, u8_component v.y, u8_component v.z⟩

/-- Modelled from the spec: `Pixel` (src/pixel.rs is not in the snapshot):
a fixed normalized screen coordinate (used by `render` as the initial ray
direction), the count of samples folded so far (implicit in the spec), and
the incrementally averaged color. -/
structure Pixel where
  pos : Vector
  count : ℕ
  color : Option RGB8

/-- Modelled from the spec: `avg_colors` of src/pixel.rs (not in the
snapshot): fold a new 8-bit color sample into the running mean by
`newAvg = oldAvg + (sample - oldAvg) / n`. -/
def Pixel.avg_colors (p : Pixel) (sample : RGB8) : RGB8 :=
  let old := p.color.getD ⟨0, 0, 0⟩
  let n : ℤ := p.count + 1
  ⟨old.r + (sample.r - old.r) / n,
   old.g + (sample.g - old.g) / n,
   old.b + (sample.b - old.b) / n⟩

/-- Modelled from the spec: the camera is an external collaborator exposing
one operation, "produce a sampled ray-origin point".  It is modelled as a
stream of sample points consumed by an index, so the number of invocations
of `get_random_vector` is observable as the index advance. -/
structure Camera where
  sample : ℕ → Vector

/-- Modelled from the spec: `Camera::get_random_vector`, the black-box
ray-origin sampler; returns the next sample point and the advanced index. -/
def Camera.get_random_vector (c : Camera) (i : ℕ) : Vector × ℕ :=
  (c.sample i, i + 1)

/-- The scene record, src/scene.rs `Scene`. -/
structure Scene where
  camera : Camera
  objects : List Sphere
  height : ℕ
  width : ℕ
  pixels : List (List Pixel)
  lights : List Vector

/-- src/scene.rs `REFLECTION_DEPTH = 3`. -/
def REFLECTION_DEPTH : ℕ := 3

/-- src/scene.rs `OFFSET_AMOUNT = 0.03`. -/
noncomputable def OFFSET_AMOUNT : ℝ := 0.03

/-- src/scene.rs `BACKGROUND_COLOR = (0.08, 0.082, 0.08)`. -/
noncomputable def BACKGROUND_COLOR : Vector := ⟨0.08, 0.082, 0.08⟩

/-- src/scene.rs `LIGHT_RADIUS = 0.3`. -/
noncomputable def LIGHT_RADIUS : ℝ := 0.3

/-- src/scene.rs `LIGHT_SAMPLES = 2`. -/
def LIGHT_SAMPLES : ℕ := 2

/-- src/scene.rs `LIGHT_COLOR = (1,1,1)`. -/
noncomputable def LIGHT_COLOR : Vector := ⟨1, 1, 1⟩

/-- src/scene.rs `LIGHT_POWER = 200`. -/
noncomputable def LIGHT_POWER : ℝ := 200

/-- Nearest-hit search, src/scene.rs `check_hits`: a linear scan over the
objects keeping the hit with strictly smaller `t`. -/
noncomputable def Scene.check_hits (s : Scene) (ray : Ray) : Option Hit :=
  s.objects.foldl
    (fun mn object =>
      match object.ray_intersect ray with
      | none => mn
      | some hit =>
        match mn with
        | none => some hit
        | some prev => if hit.t < prev.t then some hit else some prev)
    none

/-- The accumulator update of `check_hits`, factored out for the proofs. -/
noncomputable def pick_nearer (mn : Option Hit) (hit : Hit) : Option Hit :=
  match mn with
  | none => some hit
  | some prev => if hit.t < prev.t then some hit else some prev

theorem check_hits_eq_foldl (s : Scene) (ray : Ray) :
    s.check_hits ray =
      (s.objects.filterMap (fun o => o.ray_intersect ray)).foldl pick_nearer none := by
  unfold Scene.check_hits
  have key : ∀ (objs : List Sphere) (acc : Option Hit),
      objs.foldl
        (fun mn object =>
          match object.ray_intersect ray with
          | none => mn
          | some hit =>
            match mn with
            | none => some hit
            | some prev => if hit.t < prev.t then some hit else some prev)
        acc
      = (objs.filterMap (fun o => o.ray_intersect ray)).foldl pick_nearer acc := by
    intro objs
    induction objs with
    | nil => intro acc; rfl
    | cons o rest ih =>
      intro acc
      rw [List.foldl_cons, List.filterMap_cons]
      cases ho : o.ray_intersect ray with
      | none => simp only [ho]; exact ih acc
      | some hit =>
        simp only [ho, List.foldl_cons]
        exact ih (pick_nearer acc hit)
  exact key s.objects none

/-- The earliest hit with minimal `t` in a list of hits: the head wins unless
a later hit is strictly smaller. -/
noncomputable def first_min : List Hit → Option Hit
  | [] => none
  | h :: rest =>
    match first_min rest with
    | none => some h
    | some m => if m.t < h.t then some m else some h

theorem first_min_none_iff (l : List Hit) : first_min l = none ↔ l = [] := by
  cases l with
  | nil => simp [first_min]
  | cons h rest =>
    simp only [first_min]
    rcases first_min rest with _ | m
    · simp
    · dsimp only
      constructor
      · intro hh
        split_ifs at hh
      · intro hh
        simp at hh

theorem foldl_pick_some (l : List Hit) (p : Hit) :
    l.foldl pick_nearer (some p) =
      match first_min l with
      | none => some p
      | some m => if m.t < p.t then some m else some p := by
  induction l generalizing p with
  | nil => rfl
  | cons b rest ih =>
    rw [List.foldl_cons]
    show rest.foldl pick_nearer (if b.t < p.t then some b else some p) = _
    simp only [first_min]
    rcases hb : first_min rest with _ | m
    · have hrest : rest = [] := (first_min_none_iff rest).1 hb
      subst hrest
      rfl
    · by_cases h1 : b.t < p.t
      · rw [if_pos h1, ih b, hb]
        dsimp only
        by_cases h2 : m.t < b.t
        · rw [if_pos h2]
          dsimp only
          rw [if_pos (lt_trans h2 h1)]
        · rw [if_neg h2]
          dsimp only
          rw [if_pos h1]
      · rw [if_neg h1, ih p, hb]
        dsimp only
        by_cases h2 : m.t < b.t
        · rw [if_pos h2]
        · rw [if_neg h2]
          dsimp only
          rw [if_neg h1, if_neg (not_lt.2 (le_trans (not_lt.1 h1) (not_lt.1 h2)))]

theorem foldl_pick_none_eq_first_min (l : List Hit) :
    l.foldl pick_nearer none = first_min l := by
  cases l with
  | nil => rfl
  | cons a rest =>
    rw [List.foldl_cons]
    show rest.foldl pick_nearer (some a) = _
    rw [foldl_pick_some]
    simp only [first_min]

theorem first_min_split (l : List Hit) : ∀ h, first_min l = some h →
    ∃ before after, l = before ++ h :: after ∧ (∀ h' ∈ before, h.t < h'.t) ∧
      ∀ h' ∈ l, h.t ≤ h'.t := by
  induction l with
  | nil => intro h hl; simp [first_min] at hl
  | cons b rest ih =>
    intro h hl
    simp only [first_min] at hl
    rcases hb : first_min rest with _ | m
    · rw [hb] at hl
      dsimp only at hl
      obtain rfl := Option.some.inj hl
      have : rest = [] := (first_min_none_iff rest).1 hb
      subst this
      exact ⟨[], [], rfl, by simp, by simp⟩
    · rw [hb] at hl
      dsimp only at hl
      split_ifs at hl with hmb
      · obtain rfl := Option.some.inj hl
        obtain ⟨bef, aft, heq, hbef, hmin⟩ := ih _ hb
        refine ⟨b :: bef, aft, by rw [heq]; rfl, ?_, ?_⟩
        · intro h' hh'
          rcases List.mem_cons.1 hh' with rfl | hh'
          · exact hmb
          · exact hbef h' hh'
        · intro h' hh'
          rcases List.mem_cons.1 hh' with rfl | hh'
          · exact hmb.le
          · exact hmin h' hh'
      · obtain rfl := Option.some.inj hl
        obtain ⟨bef, aft, heq, hbef, hmin⟩ := ih _ hb
        refine ⟨[], rest, rfl, by simp, ?_⟩
        intro h' hh'
        rcases List.mem_cons.1 hh' with rfl | hh'
        · exact le_refl _
        · exact le_trans (not_lt.1 hmb) (hmin h' hh')

/-- Claim C2: the nearest-hit search returns `none` iff no object intersects
the ray; and any returned hit is, among the hits of the linear scan, the
earliest one with minimal `t` — every hit produced by an earlier-listed
object has strictly larger `t` (first-seen wins ties) and the returned hit's
`t` is minimal over all hits. -/
theorem check_hits_first_min (s : Scene) (ray : Ray) :
    (s.check_hits ray = none ↔
      s.objects.filterMap (fun o => o.ray_intersect ray) = [])
    ∧ ∀ h, s.check_hits ray = some h →
        ∃ before after,
          s.objects.filterMap (fun o => o.ray_intersect ray) = before ++ h :: after
          ∧ (∀ h' ∈ before, h.t < h'.t)
          ∧ ∀ h' ∈ s.objects.filterMap (fun o => o.ray_intersect ray), h.t ≤ h'.t := by
  rw [check_hits_eq_foldl, foldl_pick_none_eq_first_min]
  exact ⟨first_min_none_iff _, fun h hh => first_min_split _ h hh⟩

/-- Second material marker for the tie-break witness. -/
noncomputable def materialW2 : Material := ⟨⟨1, 0, 0⟩, ⟨0, 0, 0⟩, 0, 1⟩

/-- Witness scene: two coincident spheres whose hits share the same `t`. -/
noncomputable def sceneW2 : Scene :=
  ⟨⟨fun _ => ⟨0, 0, 0⟩⟩, [sphereG materialW, sphereG materialW2], 1, 1, [], []⟩

theorem check_hits_eval_W2 :
    sceneW2.check_hits rayW = some ⟨1, ⟨0, 0, 1⟩, ⟨0, 0, -2⟩, materialW⟩ := by
  rw [check_hits_eq_foldl]
  show ((sceneW2.objects).filterMap (fun o => o.ray_intersect rayW)).foldl
      pick_nearer none = _
  simp only [sceneW2, List.filterMap_cons, List.filterMap_nil,
    ray_intersect_eval_G]
  simp only [List.foldl_cons, List.foldl_nil, pick_nearer]
  rw [if_neg (lt_irrefl (1 : ℝ))]

/-- Witness for C2: with two coincident spheres listed in order, the search
returns the earlier-listed sphere's hit and its `t` is no larger than the
later hit's `t`. -/
theorem check_hits_first_min_witness :
    sceneW2.check_hits rayW = some ⟨1, ⟨0, 0, 1⟩, ⟨0, 0, -2⟩, materialW⟩ ∧
      (Hit.mk 1 ⟨0, 0, 1⟩ ⟨0, 0, -2⟩ materialW).t ≤
        (Hit.mk 1 ⟨0, 0, 1⟩ ⟨0, 0, -2⟩ materialW2).t := by
  refine ⟨check_hits_eval_W2, ?_⟩
  obtain ⟨bef, aft, heq, hbef, hmin⟩ :=
    (check_hits_first_min sceneW2 rayW).2 _ check_hits_eval_W2
  apply hmin
  simp only [sceneW2, List.filterMap_cons, List.filterMap_nil,
    ray_intersect_eval_G]
  simp

theorem squared_length_nonneg (v : Vector) : 0 ≤ v.squared_length := by
  simp only [Vector.squared_length, Vector.dot]
  nlinarith [mul_self_nonneg v.x, mul_self_nonneg v.y, mul_self_nonneg v.z]

theorem squared_length_eq_zero_iff (v : Vector) :
    v.squared_length = 0 ↔ v = ⟨0, 0, 0⟩ := by
  simp only [Vector.squared_length, Vector.dot]
  constructor
  · intro h
    have hx : v.x * v.x = 0 := by
      nlinarith [mul_self_nonneg v.x, mul_self_nonneg v.y, mul_self_nonneg v.z]
    have hy : v.y * v.y = 0 := by
      nlinarith [mul_self_nonneg v.x, mul_self_nonneg v.y, mul_self_nonneg v.z]
    have hz : v.z * v.z = 0 := by
      nlinarith [mul_self_nonneg v.x, mul_self_nonneg v.y, mul_self_nonneg v.z]
    ext
    · exact mul_self_eq_zero.1 hx
    · exact mul_self_eq_zero.1 hy
    · exact mul_self_eq_zero.1 hz
  · intro h
    subst h
    norm_num

theorem length_pos_of_ne_zero (v : Vector) (hv : v ≠ ⟨0, 0, 0⟩) :
    0 < v.length := by
  apply Real.sqrt_pos.mpr
  rcases lt_or_eq_of_le (squared_length_nonneg v) with h | h
  · exact h
  · exact absurd ((squared_length_eq_zero_iff v).1 h.symm) hv

theorem length_smul (c : ℝ) (v : Vector) : (c * v).length = |c| * v.length := by
  unfold Vector.length Vector.squared_length Vector.dot
  simp only [Vector.smul_x, Vector.smul_y, Vector.smul_z]
  rw [show c * v.x * (c * v.x) + c * v.y * (c * v.y) + c * v.z * (c * v.z)
      = c ^ 2 * (v.x * v.x + v.y * v.y + v.z * v.z) by ring]
  rw [Real.sqrt_mul (sq_nonneg c), Real.sqrt_sq_eq_abs]

theorem to_unit_vector_length (v : Vector) (hv : v ≠ ⟨0, 0, 0⟩) :
    v.to_unit_vector.length = 1 := by
  have hpos : 0 < v.length := length_pos_of_ne_zero v hv
  show ((1 : ℝ) / v.length * v).length = 1
  rw [length_smul, abs_of_pos (by positivity)]
  field_simp

/-- Shadow / light-visibility test, src/scene.rs `trace_ray`: offset the hit
point along the normal by `OFFSET_AMOUNT`, cast a ray toward the normalized
light vector, and compare the unit object-to-light vector's length with the
occluder's hit-point length. -/
noncomputable def Scene.trace_ray (s : Scene) (hit : Hit) (light : Vector) :
    Option Hit :=
  let intersection := hit.p
  let object_normal := hit.normal
  let offset_point := intersection + OFFSET_AMOUNT * object_normal
  let light_ray : Ray := ⟨offset_point, light.to_unit_vector⟩
  let light_hit := s.check_hits light_ray
  let obj_to_light := (light - intersection).to_unit_vector
  match light_hit with
  | none => none
  | some k => if obj_to_light.length < k.p.length then none else some k

/-- Claim C3: the shadow test casts a ray from the hit point offset along
the outward normal by `OFFSET_AMOUNT` toward the unit-normalized light
vector and re-runs the nearest-hit search; no occluder means visible
(`none`); with an occluder `k` it compares the length of the unit vector
from hit point to light — which is `1` whenever `light ≠ hit.p` — with the
length `|k.p|` of the occluder's hit-point position vector: visible exactly
when the occluder's hit-point length is strictly greater, shadowed
(`some k`) otherwise. -/
theorem trace_ray_visibility (s : Scene) (hit : Hit) (light : Vector) :
    (s.check_hits ⟨hit.p + OFFSET_AMOUNT * hit.normal, light.to_unit_vector⟩ = none →
      s.trace_ray hit light = none)
    ∧ (∀ k, s.check_hits ⟨hit.p + OFFSET_AMOUNT * hit.normal, light.to_unit_vector⟩ = some k →
        (s.trace_ray hit light = none ↔
          (light - hit.p).to_unit_vector.length < k.p.length)
        ∧ (¬ (light - hit.p).to_unit_vector.length < k.p.length →
            s.trace_ray hit light = some k))
    ∧ (light - hit.p ≠ ⟨0, 0, 0⟩ → (light - hit.p).to_unit_vector.length = 1) := by
  refine ⟨?_, ?_, ?_⟩
  · intro hch
    unfold Scene.trace_ray
    dsimp only
    rw [hch]
  · intro k hch
    unfold Scene.trace_ray
    dsimp only
    rw [hch]
    dsimp only
    constructor
    · constructor
      · intro he
        by_contra hlt
        rw [if_neg hlt] at he
        exact Option.noConfusion he
      · intro hlt
        rw [if_pos hlt]
    · intro hge
      rw [if_neg hge]
  · intro hne
    exact to_unit_vector_length _ hne

/-- Witness scene with no objects: every nearest-hit search misses. -/
noncomputable def sceneE : Scene := ⟨⟨fun _ => ⟨0, 0, 0⟩⟩, [], 1, 1, [], []⟩

theorem check_hits_sceneE (ray : Ray) : sceneE.check_hits ray = none := rfl

/-- Witness for C3: in an empty scene the shadow test reports the light
point visible, and the unit object-to-light vector has length 1. -/
theorem trace_ray_visibility_witness :
    sceneE.trace_ray ⟨1, ⟨0, 0, 1⟩, ⟨0, 0, -2⟩, materialW⟩ ⟨0, 0, 2⟩ = none ∧
      ((⟨0, 0, 2⟩ : Vector) - (⟨0, 0, 1⟩ : Vector)).to_unit_vector.length = 1 := by
  constructor
  · exact (trace_ray_visibility sceneE ⟨1, ⟨0, 0, 1⟩, ⟨0, 0, -2⟩, materialW⟩
      ⟨0, 0, 2⟩).1 (check_hits_sceneE _)
  · apply (trace_ray_visibility sceneE ⟨1, ⟨0, 0, 1⟩, ⟨0, 0, -2⟩, materialW⟩
      ⟨0, 0, 2⟩).2.2
    intro hcon
    have := congrArg Vector.z hcon
    norm_num at this

theorem to_unit_vector_zero : (Vector.mk 0 0 0).to_unit_vector = ⟨0, 0, 0⟩ := by
  unfold Vector.to_unit_vector
  show (1 : ℝ) / (Vector.mk 0 0 0).length * (Vector.mk 0 0 0) = ⟨0, 0, 0⟩
  ext <;> simp

/-- Model of `f32::powf` as the real power function `Real.rpow`.  On the
domain exercised by the claims (nonnegative bases, and negative bases with
integer exponents) `Real.rpow` agrees with the exact value `powf` computes;
non-integer exponents of negative bases (NaN in Rust) are outside the
model. -/
noncomputable def powf (x y : ℝ) : ℝ := x ^ y

/-- Blinn-Phong shading, src/scene.rs `reflection_model`.  The mutable
reassignments of the source (`distance`, `obj_to_light`) are modelled by
shadowing lets, and the `lambertian`/`specular` variables initialized to 0
and conditionally overwritten are modelled as conditionals on the same
test `obj_to_light·normal > 0`. -/
noncomputable def Scene.reflection_model (_s : Scene) (p : Hit) (light : Vector) :
    Vector :=
  let obj_to_light0 := light - p.p
  let distance0 := obj_to_light0.length
  let distance := distance0 * distance0
  let obj_to_light := obj_to_light0.to_unit_vector
  let lambertian : ℝ :=
    if obj_to_light.dot p.normal > 0 then obj_to_light.dot p.normal else 0
  let specular : ℝ :=
    if obj_to_light.dot p.normal > 0 then
      let view_dir := -(p.p.to_unit_vector)
      let half_dir := (obj_to_light + view_dir).to_unit_vector
      let specular_angle := half_dir.dot p.normal
      powf specular_angle p.material.shine
    else 0
  let color := p.material.ambient +
    LIGHT_POWER * lambertian * LIGHT_COLOR * p.material.diffuse / distance
  color + LIGHT_POWER * specular * LIGHT_COLOR / distance

/-- The shading formula exactly as claim C4 words it, with the clamped
specular base `max 0 (N·half)`; defined only to compare against
`Scene.reflection_model`. -/
noncomputable def reflection_model_claimed (_s : Scene) (p : Hit) (light : Vector) :
    Vector :=
  let L := (light - p.p).to_unit_vector
  let distance2 := (light - p.p).length * (light - p.p).length
  let lambertian := max 0 (L.dot p.normal)
  let view_dir := -(p.p.to_unit_vector)
  let half_dir := (L + view_dir).to_unit_vector
  let specular : ℝ :=
    if L.dot p.normal > 0 then powf (max 0 (half_dir.dot p.normal)) p.material.shine
    else 0
  p.material.ambient + LIGHT_POWER * lambertian * LIGHT_COLOR * p.material.diffuse / distance2
    + LIGHT_POWER * specular * LIGHT_COLOR / distance2

/-- Claim C4 (amended): the shaded color equals
`ambient + power·lambertian·lightColor·diffuse/d² + power·specular·lightColor/d²`
with `lambertian = max(0, N·L)`, where the specular term is the raw,
unclamped power `(N·half)^shininess` when `N·L > 0` and is `0` whenever
`N·L ≤ 0` (surface facing away from the light). -/
theorem reflection_model_formula (s : Scene) (p : Hit) (light : Vector) :
    (s.reflection_model p light =
      p.material.ambient
        + LIGHT_POWER * max 0 ((light - p.p).to_unit_vector.dot p.normal) * LIGHT_COLOR
            * p.material.diffuse / ((light - p.p).length * (light - p.p).length)
        + LIGHT_POWER *
            (if (light - p.p).to_unit_vector.dot p.normal > 0 then
              powf ((((light - p.p).to_unit_vector + -(p.p.to_unit_vector)).to_unit_vector).dot
                p.normal) p.material.shine
            else 0) * LIGHT_COLOR / ((light - p.p).length * (light - p.p).length))
    ∧ ((light - p.p).to_unit_vector.dot p.normal ≤ 0 →
        (if (light - p.p).to_unit_vector.dot p.normal > 0 then
          powf ((((light - p.p).to_unit_vector + -(p.p.to_unit_vector)).to_unit_vector).dot
            p.normal) p.material.shine
        else 0) = 0) := by
  constructor
  · unfold Scene.reflection_model
    dsimp only
    congr 2
    split_ifs with h
    · rw [max_eq_right h.le]
    · rw [max_eq_left (not_lt.1 h)]
  · intro h
    rw [if_neg (not_lt.2 h)]

/-- Witness for C4 (amended): with the light placed at the hit point the
object-to-light unit vector degenerates to the zero vector, its dot with the
normal is `0 ≤ 0`, and the specular term is `0`. -/
theorem reflection_model_formula_witness :
    ((⟨0, 0, 1⟩ : Vector) - (Hit.mk 1 ⟨0, 0, 1⟩ ⟨0, 0, 1⟩ materialW).p).to_unit_vector.dot
        (Hit.mk 1 ⟨0, 0, 1⟩ ⟨0, 0, 1⟩ materialW).normal ≤ 0 ∧
      (if ((⟨0, 0, 1⟩ : Vector) - (Hit.mk 1 ⟨0, 0, 1⟩ ⟨0, 0, 1⟩ materialW).p).to_unit_vector.dot
            (Hit.mk 1 ⟨0, 0, 1⟩ ⟨0, 0, 1⟩ materialW).normal > 0 then
        powf (((((⟨0, 0, 1⟩ : Vector) - (Hit.mk 1 ⟨0, 0, 1⟩ ⟨0, 0, 1⟩ materialW).p).to_unit_vector +
            -((Hit.mk 1 ⟨0, 0, 1⟩ ⟨0, 0, 1⟩ materialW).p.to_unit_vector)).to_unit_vector).dot
          (Hit.mk 1 ⟨0, 0, 1⟩ ⟨0, 0, 1⟩ materialW).normal) (Hit.mk 1 ⟨0, 0, 1⟩ ⟨0, 0, 1⟩ materialW).material.shine
      else 0) = 0 := by
  have hle : ((⟨0, 0, 1⟩ : Vector) - (Hit.mk 1 ⟨0, 0, 1⟩ ⟨0, 0, 1⟩ materialW).p).to_unit_vector.dot
      (Hit.mk 1 ⟨0, 0, 1⟩ ⟨0, 0, 1⟩ materialW).normal ≤ 0 := by
    show ((⟨0, 0, 1⟩ : Vector) - ⟨0, 0, 1⟩).to_unit_vector.dot ⟨0, 0, 1⟩ ≤ 0
    have hz : ((⟨0, 0, 1⟩ : Vector) - ⟨0, 0, 1⟩) = ⟨0, 0, 0⟩ := by ext <;> norm_num
    rw [hz, to_unit_vector_zero]
    simp [Vector.dot]
  exact ⟨hle, (reflection_model_formula sceneE ⟨1, ⟨0, 0, 1⟩, ⟨0, 0, 1⟩, materialW⟩
    ⟨0, 0, 1⟩).2 hle⟩

theorem sqrt_eval {a b : ℝ} (ha : 0 ≤ a) (h : a * a = b) : Real.sqrt b = a := by
  rw [← h]
  exact Real.sqrt_mul_self ha

/-- Hit used in the C4 counterexample: surface point `(0,0,1)`, normal
`(3/5,0,4/5)`, black ambient and diffuse, shininess 2. -/
noncomputable def hitC4 : Hit :=
  ⟨1, ⟨0, 0, 1⟩, ⟨3 / 5, 0, 4 / 5⟩, ⟨⟨0, 0, 0⟩, ⟨0, 0, 0⟩, 0, 2⟩⟩

/-- Light position used in the C4 counterexample. -/
noncomputable def lightC4 : Vector := ⟨24, 0, -6⟩

theorem c4_sub : lightC4 - hitC4.p = ⟨24, 0, -7⟩ := by
  simp only [lightC4, hitC4]
  ext <;> norm_num

theorem c4_len : (Vector.mk 24 0 (-7)).length = 25 := by
  unfold Vector.length Vector.squared_length Vector.dot
  exact sqrt_eval (by norm_num) (by norm_num)

theorem c4_unit : (Vector.mk 24 0 (-7)).to_unit_vector = ⟨24 / 25, 0, -7 / 25⟩ := by
  unfold Vector.to_unit_vector
  rw [c4_len]
  show (1 : ℝ) / 25 * (Vector.mk 24 0 (-7)) = _
  ext <;> norm_num

theorem c4_unit_p : (Vector.mk 0 0 1).to_unit_vector = ⟨0, 0, 1⟩ := by
  unfold Vector.to_unit_vector
  have : (Vector.mk 0 0 1).length = 1 := by
    unfold Vector.length Vector.squared_length Vector.dot
    exact sqrt_eval (by norm_num) (by norm_num)
  rw [this]
  show (1 : ℝ) / 1 * (Vector.mk 0 0 1) = _
  ext <;> norm_num

theorem c4_Ldot : (Vector.mk (24 / 25) 0 (-7 / 25)).dot hitC4.normal = 44 / 125 := by
  simp only [hitC4, Vector.dot, Vector.mk_x, Vector.mk_y, Vector.mk_z]
  norm_num

theorem c4_halfsum :
    (Vector.mk (24 / 25) 0 (-7 / 25)) + -(Vector.mk 0 0 1) = ⟨24 / 25, 0, -32 / 25⟩ := by
  ext <;> norm_num

theorem c4_halflen : (Vector.mk (24 / 25) 0 (-32 / 25)).length = 8 / 5 := by
  unfold Vector.length Vector.squared_length Vector.dot
  exact sqrt_eval (by norm_num) (by norm_num)

theorem c4_halfunit :
    (Vector.mk (24 / 25) 0 (-32 / 25)).to_unit_vector = ⟨3 / 5, 0, -4 / 5⟩ := by
  unfold Vector.to_unit_vector
  rw [c4_halflen]
  show (1 : ℝ) / (8 / 5) * (Vector.mk (24 / 25) 0 (-32 / 25)) = _
  ext <;> norm_num

theorem c4_halfdot : (Vector.mk (3 / 5) 0 (-4 / 5)).dot hitC4.normal = -7 / 25 := by
  simp only [hitC4, Vector.dot, Vector.mk_x, Vector.mk_y, Vector.mk_z]
  norm_num

theorem c4_powf : powf (-7 / 25) 2 = 49 / 625 := by
  unfold powf
  rw [show (2 : ℝ) = ((2 : ℕ) : ℝ) by norm_num, Real.rpow_natCast]
  norm_num

theorem c4_powf_claimed : powf (max 0 (-7 / 25)) 2 = 0 := by
  unfold powf
  rw [max_eq_left (by norm_num : (-7 / 25 : ℝ) ≤ 0)]
  exact Real.zero_rpow (by norm_num)

theorem reflection_model_eval_C4 :
    sceneE.reflection_model hitC4 lightC4 =
      ⟨392 / 15625, 392 / 15625, 392 / 15625⟩ := by
  unfold Scene.reflection_model
  dsimp only
  have hc : (44 / 125 : ℝ) > 0 := by norm_num
  rw [c4_sub, c4_len, c4_unit, c4_Ldot, if_pos hc, if_pos hc]
  have hp : hitC4.p.to_unit_vector = ⟨0, 0, 1⟩ := c4_unit_p
  rw [hp, c4_halfsum, c4_halfunit, c4_halfdot]
  show hitC4.material.ambient +
      LIGHT_POWER * (44 / 125) * LIGHT_COLOR * hitC4.material.diffuse / ((25 : ℝ) * 25) +
      LIGHT_POWER * powf (-7 / 25) hitC4.material.shine * LIGHT_COLOR / ((25 : ℝ) * 25) = _
  rw [show hitC4.material.shine = (2 : ℝ) from rfl, c4_powf]
  simp only [hitC4, LIGHT_POWER, LIGHT_COLOR]
  ext <;> norm_num

theorem reflection_model_claimed_eval_C4 :
    reflection_model_claimed sceneE hitC4 lightC4 = ⟨0, 0, 0⟩ := by
  unfold reflection_model_claimed
  dsimp only
  have hc : (44 / 125 : ℝ) > 0 := by norm_num
  rw [c4_sub, c4_len, c4_unit, c4_Ldot, if_pos hc]
  have hp : hitC4.p.to_unit_vector = ⟨0, 0, 1⟩ := c4_unit_p
  rw [hp, c4_halfsum, c4_halfunit, c4_halfdot]
  show hitC4.material.ambient +
      LIGHT_POWER * max 0 (44 / 125) * LIGHT_COLOR * hitC4.material.diffuse / ((25 : ℝ) * 25) +
      LIGHT_POWER * powf (max 0 (-7 / 25)) hitC4.material.shine * LIGHT_COLOR / ((25 : ℝ) * 25) = _
  rw [show hitC4.material.shine = (2 : ℝ) from rfl, c4_powf_claimed]
  simp only [hitC4, LIGHT_POWER, LIGHT_COLOR]
  ext <;> norm_num

/-- Counterexample to C4 as stated: at a hit whose half-vector makes a
negative angle with the normal (`N·half = -7/25`) while `N·L = 44/125 > 0`
and `shininess = 2`, the code's unclamped specular term is `(-7/25)² = 49/625`
whereas the claimed `max(0, N·half)²` is `0`, so the shaded colors differ. -/
theorem reflection_model_claim_counterexample :
    sceneE.reflection_model hitC4 lightC4 ≠
      reflection_model_claimed sceneE hitC4 lightC4 := by
  rw [reflection_model_eval_C4, reflection_model_claimed_eval_C4]
  intro h
  have := congrArg Vector.x h
  norm_num at this

/-- src/scene.rs `reflected_vector`: the mirror reflection of the *hit
point's position vector* about the hit normal. -/
noncomputable def Scene.reflected_vector (_s : Scene) (hit : Hit) : Vector :=
  let v := hit.p
  let a := hit.normal
  v - (2 * v.dot a) * a

/-- State of the bounce loop of `render` (src/scene.rs lines 71–140): the
accumulated sample color, the cumulative reflection factor, and the current
ray origin and direction. -/
structure LoopState where
  color : Option Vector
  reflection : ℝ
  origin : Vector
  direction : Vector

/-- The `while n_reflections < REFLECTION_DEPTH` loop of `render`
(src/scene.rs lines 82–140), with fuel `REFLECTION_DEPTH - n_reflections`.
On a miss the loop stores the background color only when no color has been
accumulated yet and terminates.  On a hit it shadow-tests toward
`light_point`, accumulates the sampled color weighted by the running
reflection factor (or stores it unweighted when no color exists yet), and
advances the ray from the last hit `k` — which, mirroring the shadowed `p`
binding of the source, is the occluder when the point is shadowed and the
surface hit otherwise. -/
noncomputable def Scene.bounce_loop (s : Scene) (l light_point : Vector) :
    ℕ → LoopState → LoopState
  | 0, st => st
  | fuel + 1, st =>
    let ray := get_ray st.origin st.direction
    let initial_hit := s.check_hits ray
    match initial_hit with
    | none => { st with color := some (st.color.getD BACKGROUND_COLOR) }
    | some p =>
      let light_hit := s.trace_ray p light_point
      let sampled_color := match light_hit with
        | none => s.reflection_model p l
        | some _ => Vector.mk 0 0 0
      let k := match light_hit with
        | none => p
        | some q => q
      let color' := match st.color with
        | some c => some (c + st.reflection * sampled_color)
        | none => some sampled_color
      Scene.bounce_loop s l light_point fuel
        { color := color',
          reflection := st.reflection * k.material.reflectiveness,
          origin := k.p + OFFSET_AMOUNT * k.normal.to_unit_vector,
          direction := s.reflected_vector k }

theorem bounce_loop_miss (s : Scene) (l lp : Vector) (fuel : ℕ) (st : LoopState)
    (hmiss : s.check_hits (get_ray st.origin st.direction) = none) :
    s.bounce_loop l lp (fuel + 1) st =
      { st with color := some (st.color.getD BACKGROUND_COLOR) } := by
  unfold Scene.bounce_loop
  dsimp only
  rw [hmiss]

/-- Claim C5 (amended): whenever the cast ray hits no object the bounce loop
terminates immediately, for every remaining depth budget; it stores the
background color only when no color has been accumulated yet, and otherwise
leaves the accumulated color unchanged (the background is discarded). -/
theorem bounce_miss_terminates (s : Scene) (l lp : Vector) (fuel : ℕ)
    (st : LoopState)
    (hmiss : s.check_hits (get_ray st.origin st.direction) = none) :
    s.bounce_loop l lp (fuel + 1) st =
      { st with color := some (st.color.getD BACKGROUND_COLOR) } :=
  bounce_loop_miss s l lp fuel st hmiss

/-- Witness for C5 (amended): in the empty scene, starting with an empty
accumulator, one loop entry stores the background color and stops. -/
theorem bounce_miss_terminates_witness :
    sceneE.check_hits (get_ray ⟨0, 0, 0⟩ ⟨0, 0, 1⟩) = none ∧
      sceneE.bounce_loop ⟨0, 0, 0⟩ ⟨0, 0, 0⟩ 1 ⟨none, 1, ⟨0, 0, 0⟩, ⟨0, 0, 1⟩⟩ =
        ⟨some BACKGROUND_COLOR, 1, ⟨0, 0, 0⟩, ⟨0, 0, 1⟩⟩ := by
  refine ⟨rfl, ?_⟩
  have := bounce_miss_terminates sceneE ⟨0, 0, 0⟩ ⟨0, 0, 0⟩ 0
    ⟨none, 1, ⟨0, 0, 0⟩, ⟨0, 0, 1⟩⟩ rfl
  simpa using this

/-- Counterexample to C5 as stated: on a miss with an already-accumulated
color `(1,1,1)` the loop returns that color unchanged — the background color
is neither stored nor added, although the claim asserts it is contributed
for every depth budget. -/
theorem bounce_miss_counterexample :
    (sceneE.bounce_loop ⟨0, 0, 0⟩ ⟨0, 0, 0⟩ REFLECTION_DEPTH
        ⟨some ⟨1, 1, 1⟩, 1, ⟨0, 0, 0⟩, ⟨0, 0, 1⟩⟩).color = some ⟨1, 1, 1⟩ ∧
      (⟨1, 1, 1⟩ : Vector) ≠ ⟨1, 1, 1⟩ + (1 : ℝ) * BACKGROUND_COLOR ∧
      (⟨1, 1, 1⟩ : Vector) ≠ BACKGROUND_COLOR := by
  refine ⟨?_, ?_, ?_⟩
  · have := bounce_loop_miss sceneE ⟨0, 0, 0⟩ ⟨0, 0, 0⟩ 2
      ⟨some ⟨1, 1, 1⟩, 1, ⟨0, 0, 0⟩, ⟨0, 0, 1⟩⟩ rfl
    rw [show REFLECTION_DEPTH = 2 + 1 from rfl, this]
    rfl
  · intro h
    have := congrArg Vector.x h
    simp only [Vector.add_x, Vector.smul_x, Vector.mk_x, BACKGROUND_COLOR] at this
    norm_num at this
  · intro h
    have := congrArg Vector.x h
    simp only [Vector.mk_x, BACKGROUND_COLOR] at this
    norm_num at this

/-- The light-point sampling of `render` (src/scene.rs lines 75–80): the
three `rand::random` results are packed into a vector which is normalized
and scaled by `LIGHT_RADIUS`.  Note the result does not involve the light's
position. -/
noncomputable def sample_light_point (r1 r2 r3 : ℝ) : Vector :=
  LIGHT_RADIUS * (Vector.mk r1 r2 r3).to_unit_vector

/-- State threaded across the (light, light-sample) iterations of one pixel
in `render` (src/scene.rs lines 62–151): the accumulated color, the current
ray origin and direction (all initialized once per pixel, before the light
loop), the index into the stream of `rand::random` results, and the pixel
record being averaged into. -/
structure SampleState where
  color : Option Vector
  origin : Vector
  direction : Vector
  rndIdx : ℕ
  pixel : Pixel

/-- One iteration of the `for _ in 0 .. LIGHT_SAMPLES` body of `render`
(src/scene.rs lines 70–151) for light `l`: draw three random components and
sample a light point, run the bounce loop with `reflection` reset to 1 and
`n_reflections` to 0 but with the threaded color/origin/direction, then fold
the accumulated color (`to_u8`, black if absent) into the pixel's running
average. -/
noncomputable def Scene.sample_step (s : Scene) (rnd : ℕ → ℝ) (l : Vector)
    (st : SampleState) : SampleState :=
  let light_point :=
    sample_light_point (rnd st.rndIdx) (rnd (st.rndIdx + 1)) (rnd (st.rndIdx + 2))
  let st' := s.bounce_loop l light_point REFLECTION_DEPTH
    ⟨st.color, 1, st.origin, st.direction⟩
  let folded : RGB8 := match st'.color with
    | some c => st.pixel.avg_colors c.to_u8
    | none => st.pixel.avg_colors ⟨0, 0, 0⟩
  { color := st'.color, origin := st'.origin, direction := st'.direction,
    rndIdx := st.rndIdx + 3,
    pixel := { pos := st.pixel.pos, count := st.pixel.count + 1,
               color := some folded } }

/-- The flattened (light, light-sample) iteration sequence of `render`:
lights outer, `LIGHT_SAMPLES` iterations inner. -/
def light_sample_iters (lights : List Vector) : List Vector :=
  lights.flatMap (fun l => List.replicate LIGHT_SAMPLES l)

/-- The per-pixel body of `render` (src/scene.rs lines 62–151): the color
accumulator is initialized to `None`, the ray direction to the pixel's
coordinate, and the ray origin to a camera sample — all once per pixel,
before the light loop; the camera sampler is consulted exactly there.  The
(light, light-sample) iterations then update the threaded state.  Returns
the final state together with the advanced camera-stream index. -/
noncomputable def Scene.render_pixel (s : Scene) (rnd : ℕ → ℝ)
    (camIdx rndIdx : ℕ) (px : Pixel) : SampleState × ℕ :=
  let color : Option Vector := none
  let direction := px.pos
  let rv := s.camera.get_random_vector camIdx
  let origin := rv.1
  let camIdx' := rv.2
  ((light_sample_iters s.lights).foldl (fun st l => s.sample_step rnd l st)
    ⟨color, origin, direction, rndIdx, px⟩, camIdx')

/-- Claim C6 (amended): the camera's ray-origin sampler is invoked exactly
once per pixel — the camera-stream index advances by exactly one across the
whole per-pixel rendering, for every number of lights and samples — and the
per-sample iterations never consult the camera (the state they fold over
contains only the single sample drawn before the light loop). -/
theorem camera_called_once_per_pixel (s : Scene) (rnd : ℕ → ℝ)
    (camIdx rndIdx : ℕ) (px : Pixel) :
    (s.render_pixel rnd camIdx rndIdx px).2 = camIdx + 1
    ∧ (s.render_pixel rnd camIdx rndIdx px).1 =
        (light_sample_iters s.lights).foldl (fun st l => s.sample_step rnd l st)
          ⟨none, s.camera.sample camIdx, px.pos, rndIdx, px⟩ :=
  ⟨rfl, rfl⟩

/-- Witness pixel record. -/
noncomputable def pixelW : Pixel := ⟨⟨0, 0, 0⟩, 0, none⟩

/-- Witness scene with one light and no objects. -/
noncomputable def sceneL1 : Scene :=
  ⟨⟨fun _ => ⟨0, 0, 0⟩⟩, [], 1, 1, [], [⟨5, 5, 5⟩]⟩

/-- Counterexample to C6 as stated: with one light the claim predicts
`lights × lightSamples = 1 * 2 = 2` camera invocations for the pixel, but
the camera stream advances by exactly `1`. -/
theorem camera_calls_counterexample :
    (sceneL1.render_pixel (fun _ => 0) 0 0 pixelW).2 = 0 + 1 ∧
      sceneL1.lights.length * LIGHT_SAMPLES = 2 ∧ (0 + 1 : ℕ) ≠ 2 := by
  refine ⟨rfl, ?_, by norm_num⟩
  simp [sceneL1, LIGHT_SAMPLES]

/-- Claim C7 (code bug): `render` computes
`light_point = LIGHT_RADIUS * p.to_unit_vector()` without adding the light's
center, so the sampled point lies on the sphere of radius `LIGHT_RADIUS`
centered at the ORIGIN, not at the light.  With light center `(10,10,10)`
and random vector `(1,0,0)`, the sampled point is `(3/10, 0, 0)`: its
squared distance to the light center differs from `LIGHT_RADIUS²`, while its
squared distance to the origin equals `LIGHT_RADIUS²` exactly. -/
theorem light_point_not_centered_at_light :
    sample_light_point 1 0 0 = ⟨3 / 10, 0, 0⟩ ∧
      (sample_light_point 1 0 0 - ⟨10, 10, 10⟩).squared_length ≠
        LIGHT_RADIUS * LIGHT_RADIUS ∧
      (sample_light_point 1 0 0).squared_length = LIGHT_RADIUS * LIGHT_RADIUS := by
  have he : sample_light_point 1 0 0 = ⟨3 / 10, 0, 0⟩ := by
    unfold sample_light_point
    have hu : (Vector.mk 1 0 0).to_unit_vector = ⟨1, 0, 0⟩ := by
      unfold Vector.to_unit_vector
      have h1 : (Vector.mk 1 0 0).length = 1 := by
        unfold Vector.length Vector.squared_length Vector.dot
        exact sqrt_eval (by norm_num) (by norm_num)
      rw [h1]
      show (1 : ℝ) / 1 * (Vector.mk 1 0 0) = _
      ext <;> norm_num
    rw [hu]
    unfold LIGHT_RADIUS
    ext <;> norm_num
  refine ⟨he, ?_, ?_⟩
  · rw [he]
    unfold LIGHT_RADIUS Vector.squared_length Vector.dot
    simp only [Vector.sub_x, Vector.sub_y, Vector.sub_z, Vector.mk_x,
      Vector.mk_y, Vector.mk_z]
    norm_num
  · rw [he]
    unfold LIGHT_RADIUS Vector.squared_length Vector.dot
    simp only [Vector.mk_x, Vector.mk_y, Vector.mk_z]
    norm_num

theorem bounce_loop_keeps_some (s : Scene) (l lp : Vector) :
    ∀ (fuel : ℕ) (st : LoopState), st.color.isSome = true →
      ((s.bounce_loop l lp fuel st).color).isSome = true := by
  intro fuel
  induction fuel with
  | zero => intro st h; exact h
  | succ n ih =>
    intro st h
    unfold Scene.bounce_loop
    dsimp only
    cases hch : s.check_hits (get_ray st.origin st.direction) with
    | none => rfl
    | some p =>
      dsimp only
      apply ih
      cases st.color <;> rfl

theorem bounce_loop_sets_color (s : Scene) (l lp : Vector) (fuel : ℕ)
    (st : LoopState) :
    ((s.bounce_loop l lp (fuel + 1) st).color).isSome = true := by
  unfold Scene.bounce_loop
  dsimp only
  cases hch : s.check_hits (get_ray st.origin st.direction) with
  | none => rfl
  | some p =>
    dsimp only
    apply bounce_loop_keeps_some
    cases st.color <;> rfl

theorem sample_step_color_some (s : Scene) (rnd : ℕ → ℝ) (l : Vector)
    (st : SampleState) : ((s.sample_step rnd l st).color).isSome = true := by
  unfold Scene.sample_step
  dsimp only
  exact bounce_loop_sets_color s l _ 2 ⟨st.color, 1, st.origin, st.direction⟩

/-- Claim C8: the sample accumulator, ray origin and ray direction are
initialized once per pixel (color `None`, direction the pixel coordinate,
origin the single camera sample) and then threaded from each light-sample
iteration to the next: the per-pixel result is one fold of `sample_step`
over the (light, light-sample) list from that single initial state; the
state entering the sample after any prefix is exactly the state the prefix
left (no re-initialization between samples); and every executed sample
leaves a non-empty accumulated color — so the value folded into the pixel's
running average after sample n includes the contributions accumulated
during the preceding n-1 samples instead of being an independent per-sample
value. -/
theorem render_pixel_accumulator_threading (s : Scene) (rnd : ℕ → ℝ)
    (camIdx rndIdx : ℕ) (px : Pixel) :
    ((s.render_pixel rnd camIdx rndIdx px).1 =
      (light_sample_iters s.lights).foldl (fun st l => s.sample_step rnd l st)
        ⟨none, s.camera.sample camIdx, px.pos, rndIdx, px⟩)
    ∧ (∀ pre l post, light_sample_iters s.lights = pre ++ l :: post →
        (pre ++ l :: post).foldl (fun st l' => s.sample_step rnd l' st)
            ⟨none, s.camera.sample camIdx, px.pos, rndIdx, px⟩ =
          post.foldl (fun st l' => s.sample_step rnd l' st)
            (s.sample_step rnd l
              (pre.foldl (fun st l' => s.sample_step rnd l' st)
                ⟨none, s.camera.sample camIdx, px.pos, rndIdx, px⟩)))
    ∧ ∀ st l, ((s.sample_step rnd l st).color).isSome = true := by
  refine ⟨rfl, ?_, ?_⟩
  · intro pre l post _
    rw [List.foldl_append, List.foldl_cons]
  · intro st l
    exact sample_step_color_some s rnd l st

/-- Witness for C8: in the one-light scene the iteration list is two copies
of the light; splitting after the empty prefix shows the remaining sample
runs from the first sample's output state, and the first sample's output
color is non-empty. -/
theorem render_pixel_accumulator_threading_witness :
    light_sample_iters sceneL1.lights = [] ++ ⟨5, 5, 5⟩ :: [⟨5, 5, 5⟩] ∧
      (([] ++ ⟨5, 5, 5⟩ :: [⟨5, 5, 5⟩]) : List Vector).foldl
          (fun st l' => sceneL1.sample_step (fun _ => 0) l' st)
          ⟨none, sceneL1.camera.sample 0, pixelW.pos, 0, pixelW⟩ =
        ([⟨5, 5, 5⟩] : List Vector).foldl
          (fun st l' => sceneL1.sample_step (fun _ => 0) l' st)
          (sceneL1.sample_step (fun _ => 0) ⟨5, 5, 5⟩
            (([] : List Vector).foldl
              (fun st l' => sceneL1.sample_step (fun _ => 0) l' st)
              ⟨none, sceneL1.camera.sample 0, pixelW.pos, 0, pixelW⟩)) ∧
      ((sceneL1.sample_step (fun _ => 0) ⟨5, 5, 5⟩
          ⟨none, sceneL1.camera.sample 0, pixelW.pos, 0, pixelW⟩).color).isSome = true := by
  have hiter : light_sample_iters sceneL1.lights = [] ++ ⟨5, 5, 5⟩ :: [⟨5, 5, 5⟩] := rfl
  exact ⟨hiter,
    (render_pixel_accumulator_threading sceneL1 (fun _ => 0) 0 0 pixelW).2.1
      [] _ [⟨5, 5, 5⟩] hiter,
    (render_pixel_accumulator_threading sceneL1 (fun _ => 0) 0 0 pixelW).2.2 _ _⟩

/-- The row-major pixel buffer built by `make_png` (src/scene.rs lines
241–254): y outer, x inner, the pixel's averaged color or black when none
was computed.  Out-of-range indexing (impossible for the grid invariant) is
modelled with default values. -/
noncomputable def Scene.render_buffer (s : Scene) : List RGB8 :=
  (List.range s.height).flatMap (fun y =>
    (List.range s.width).map (fun x =>
      match ((s.pixels.getD y []).getD x ⟨⟨0, 0, 0⟩, 0, none⟩).color with
      | some c => c
      | none => ⟨0, 0, 0⟩))

/-- The PNG write, src/scene.rs `make_png`.  The external encoder
(`lodepng::encode24_file`, an external collaborator per the spec) is passed
as a function of the path, buffer and dimensions; the `println!` diagnostic
is modelled as the returned optional message; `make_png` takes `&self`, so
the scene is returned unchanged. -/
noncomputable def Scene.make_png (s : Scene) (fname : String)
    (encode : String → List RGB8 → ℕ → ℕ → Except String Unit) :
    Bool × Option String × Scene :=
  let filename := fname
  let render_pixels := s.render_buffer
  match encode fname render_pixels s.width s.height with
  | Except.ok _ => (true, none, s)
  | Except.error err =>
    (false, some ("Error writing file \"" ++ filename ++ "\": " ++ err), s)

/-- Claim C10: when the image write fails, `make_png` returns `false`
together with a diagnostic that contains both the file path and the
underlying error; on success it returns `true` with no diagnostic; in either
case the scene — and hence its already-computed pixel data — is returned
unchanged, and a result is always produced (rendering is not aborted). -/
theorem make_png_spec (s : Scene) (fname : String)
    (encode : String → List RGB8 → ℕ → ℕ → Except String Unit) :
    ((s.make_png fname encode).2.2 = s)
    ∧ (∀ e, encode fname s.render_buffer s.width s.height = Except.error e →
        (s.make_png fname encode).1 = false ∧
          (s.make_png fname encode).2.1 =
            some ("Error writing file \"" ++ fname ++ "\": " ++ e) ∧
          ∃ pre post, "Error writing file \"" ++ fname ++ "\": " ++ e =
              pre ++ fname ++ post ∧
            ∃ pre2, "Error writing file \"" ++ fname ++ "\": " ++ e = pre2 ++ e)
    ∧ (∀ u, encode fname s.render_buffer s.width s.height = Except.ok u →
        (s.make_png fname encode).1 = true ∧
          (s.make_png fname encode).2.1 = none) := by
  refine ⟨?_, ?_, ?_⟩
  · unfold Scene.make_png
    dsimp only
    cases encode fname s.render_buffer s.width s.height <;> rfl
  · intro e he
    unfold Scene.make_png
    dsimp only
    rw [he]
    refine ⟨rfl, rfl, "Error writing file \"", "\": " ++ e, ?_, ?_⟩
    · rw [String.append_assoc]
    · exact ⟨"Error writing file \"" ++ fname ++ "\": ", by
        rw [String.append_assoc, String.append_assoc]⟩
  · intro u hu
    unfold Scene.make_png
    dsimp only
    rw [hu]
    exact ⟨rfl, rfl⟩

/-- Failing encoder used in the C10 witness. -/
def encodeFail : String → List RGB8 → ℕ → ℕ → Except String Unit :=
  fun _ _ _ _ => Except.error "disk full"

/-- Succeeding encoder used in the C10 witness. -/
def encodeOk : String → List RGB8 → ℕ → ℕ → Except String Unit :=
  fun _ _ _ _ => Except.ok ()

/-- Witness for C10: with a failing encoder the write returns `false` and a
diagnostic naming the path and the error, with a succeeding encoder it
returns `true` and no diagnostic, and in both cases the scene is unchanged. -/
theorem make_png_spec_witness :
    (sceneE.make_png "out.png" encodeFail).1 = false ∧
      (sceneE.make_png "out.png" encodeFail).2.1 =
        some ("Error writing file \"" ++ "out.png" ++ "\": " ++ "disk full") ∧
      (sceneE.make_png "out.png" encodeFail).2.2 = sceneE ∧
      (sceneE.make_png "out.png" encodeOk).1 = true ∧
      (sceneE.make_png "out.png" encodeOk).2.1 = none := by
  obtain ⟨hf1, hf2, -⟩ :=
    (make_png_spec sceneE "out.png" encodeFail).2.1 "disk full" rfl
  obtain ⟨ho1, ho2⟩ := (make_png_spec sceneE "out.png" encodeOk).2.2 () rfl
  exact ⟨hf1, hf2, (make_png_spec sceneE "out.png" encodeFail).1, ho1, ho2⟩

end RayTracer
